import Mathlib

/-
Verification of the OEE worker (oee-be repository).

Shallow embedding conventions:
* Timestamps are milliseconds since the epoch, modelled as `ℤ`
  (JavaScript `Date.getTime()`).
* Decimal-string database columns read through
  `parseFloat(x ?? '0') || 0` are modelled as `Option ℚ`, with `none`
  standing for SQL `null` (or an unparseable string, which the `|| 0`
  guard also maps to 0 for every comparison the code performs).
* Machine conditions are the five string constants of the source,
  modelled as an enumeration.
* Database tables are passed explicitly as lists; queries that return a
  machine's rows ordered by timestamp become list arguments that carry
  that order.
-/

namespace Oee

/-- Machine operational condition, mirroring the string constants used
throughout the source (`'MachineOFF'`, `'HeatingUp'`, `'Iddle'`,
`'MachineProduction'`, `'UNKNOWN'`). -/
inductive Condition where
  | MachineOFF
  | HeatingUp
  | Iddle
  | MachineProduction
  | UNKNOWN
deriving DecidableEq, Repr

/-- Reading of a nullable decimal-string column through
`parseFloat(x ?? '0') || 0` (daily-calculator.ts) or
`parseFloat(x || '0')` (temperature-tracker.ts): `null` and unparseable
strings behave as 0. -/
def parseOrZero (x : Option ℚ) : ℚ := x.getD 0

/-- Row of `tbl_condition` as the worker reads and writes it
(data-processor.ts / daily-calculator.ts).  The log is always handled
per machine, so `machine_id` is left implicit.  The column really is
spelled `last_timstamp` in the schema. -/
structure ConditionRecord where
  current_timestamp : ℤ
  current_condition : Condition
  current_kwh : Option ℚ
  last_timstamp : Option ℤ
  last_condition : Option Condition
  last_kwh : Option ℚ
deriving DecidableEq, Repr

/-- Source `calculateHours` (daily-calculator.ts lines 131-146): hours
between the first and the last record of the given list — the code's
"Simple method: Last timestamp - First timestamp" over the records
already filtered to one condition. -/
def calculateHours : List ConditionRecord → ℚ
  | [] => 0
  | r :: rs =>
    (((rs.getLastD r).current_timestamp - r.current_timestamp : ℤ) : ℚ) / (1000 * 60 * 60)

/-- Segment walk of `calculateKwhDelta` (daily-calculator.ts lines
178-201): scans the whole day's records, threading the currently open
(start, end) segment of the target condition, and emits every maximal
run of consecutive records carrying that condition. -/
def kwhSegments (cond : Condition) :
    List ConditionRecord → Option (ConditionRecord × ConditionRecord) →
    List (ConditionRecord × ConditionRecord)
  | [], none => []
  | [], some seg => [seg]
  | r :: rs, none =>
    if r.current_condition = cond then kwhSegments cond rs (some (r, r))
    else kwhSegments cond rs none
  | r :: rs, some seg =>
    if r.current_condition = cond then kwhSegments cond rs (some (seg.1, r))
    else seg :: kwhSegments cond rs none

/-- Energy of one segment (daily-calculator.ts lines 206-213):
`parseFloat(start.last_kwh ?? '0') || 0` subtracted from
`parseFloat(end.current_kwh) || 0`. -/
def segmentKwh (seg : ConditionRecord × ConditionRecord) : ℚ :=
  parseOrZero seg.2.current_kwh - parseOrZero seg.1.last_kwh

/-- Source `calculateKwhDelta` (daily-calculator.ts lines 164-216).
`records` is the per-condition filtered list (used only for emptiness
and for the condition name of its head); `allConditions` is the whole
day.  The source re-sorts `allConditions` by `current_timestamp`, but
every caller passes the ascending fetch, on which the (stable) sort is
the identity, so the embedding takes the list as given. -/
def calculateKwhDelta (records allConditions : List ConditionRecord) : ℚ :=
  match records with
  | [] => 0
  | r0 :: _ => ((kwhSegments r0.current_condition allConditions none).map segmentKwh).sum

/-- Result record of `calculateDailyStats` (daily-calculator.ts lines 7-14). -/
structure DailyStats where
  heatingUpHours : ℚ
  heatingUpKwh : ℚ
  iddleHours : ℚ
  iddleKwh : ℚ
  productionHours : ℚ
  productionKwh : ℚ
deriving DecidableEq, Repr

/-- Source `calculateDailyStats` (daily-calculator.ts lines 22-124),
restricted to its pure core: `conditions` is the day's fetch for the
machine, ordered ascending by `current_timestamp`.  The logging-only
"OPTION A" block is omitted; the persisted total is recomputed by
`saveDailyMcRunHour` below exactly as in the source. -/
def calculateDailyStats (conditions : List ConditionRecord) : DailyStats :=
  if conditions.isEmpty then
    { heatingUpHours := 0, heatingUpKwh := 0, iddleHours := 0, iddleKwh := 0,
      productionHours := 0, productionKwh := 0 }
  else
    let heatingUpRecords := conditions.filter
      (fun c => decide (c.current_condition = Condition.HeatingUp))
    let iddleRecords := conditions.filter
      (fun c => decide (c.current_condition = Condition.Iddle))
    let productionRecords := conditions.filter
      (fun c => decide (c.current_condition = Condition.MachineProduction))
    { heatingUpHours :=
        if heatingUpRecords.length > 0 then calculateHours heatingUpRecords else 0
      heatingUpKwh :=
        if heatingUpRecords.length > 0 then calculateKwhDelta heatingUpRecords conditions else 0
      iddleHours :=
        if iddleRecords.length > 0 then calculateHours iddleRecords else 0
      iddleKwh :=
        if iddleRecords.length > 0 then calculateKwhDelta iddleRecords conditions else 0
      productionHours :=
        if productionRecords.length > 0 then calculateHours productionRecords else 0
      productionKwh :=
        if productionRecords.length > 0 then calculateKwhDelta productionRecords conditions else 0 }

/-- Total-hours block of `saveDailyMcRunHour` (daily-calculator.ts lines
259-269): last record's `current_timestamp` minus the first record's,
over all of the day's records. -/
def totalHoursOf : List ConditionRecord → ℚ
  | [] => 0
  | r :: rs =>
    (((rs.getLastD r).current_timestamp - r.current_timestamp : ℤ) : ℚ) / (1000 * 60 * 60)

/-- Total-kWh block of `saveDailyMcRunHour` (daily-calculator.ts lines
271-274): `last_kwh` of the first record to `current_kwh` of the last
record, over all of the day's records. -/
def totalKwhOf : List ConditionRecord → ℚ
  | [] => 0
  | r :: rs => parseOrZero (rs.getLastD r).current_kwh - parseOrZero r.last_kwh

/-- Row of `tbl_mc_run_hour` as `saveDailyMcRunHour` upserts it, before
the `toFixed(2)` string formatting of the persistence layer. -/
structure McRunHourRow where
  mc_run_h : ℚ
  mc_run_kwh : ℚ
  heat_up_h : ℚ
  heat_up_kwh : ℚ
  iddle_h : ℚ
  iddle_kwh : ℚ
  mc_production_h : ℚ
  mc_production_kwh : ℚ
  is_one_block : Bool
deriving DecidableEq, Repr

/-- Source `saveDailyMcRunHour` (daily-calculator.ts lines 221-398),
pure core.  `allRecords` is the day's condition fetch (same query as in
`calculateDailyStats`); `sharingHasProduction` has one entry per other
machine with the same `power_meter_id`, true when that machine has a
`MachineProduction` condition record inside the same day window.
`is_one_block` defaults to true and flips to false exactly when the
sharing set is non-empty, this machine's `productionHours` is positive,
and some sharing machine has such a record; on false only the total and
production kWh figures are divided by 2. -/
def saveDailyMcRunHour (allRecords : List ConditionRecord)
    (sharingHasProduction : List Bool) : McRunHourRow :=
  let stats := calculateDailyStats allRecords
  let totalHours := totalHoursOf allRecords
  let totalKwh := totalKwhOf allRecords
  let isOneBlock : Bool :=
    !(!sharingHasProduction.isEmpty && decide (stats.productionHours > 0) &&
      sharingHasProduction.any id)
  let finalTotalKwh := if isOneBlock then totalKwh else totalKwh / 2
  let finalProductionKwh := if isOneBlock then stats.productionKwh else stats.productionKwh / 2
  { mc_run_h := totalHours
    mc_run_kwh := finalTotalKwh
    heat_up_h := stats.heatingUpHours
    heat_up_kwh := stats.heatingUpKwh
    iddle_h := stats.iddleHours
    iddle_kwh := stats.iddleKwh
    mc_production_h := stats.productionHours
    mc_production_kwh := finalProductionKwh
    is_one_block := isOneBlock }

/-- Per-condition hour buckets of the repository's own verification
script (test-verify-calculation.ts). -/
structure HoursBreakdown where
  heatingUp : ℚ
  iddle : ℚ
  production : ℚ
  machineOff : ℚ
deriving DecidableEq, Repr

/-- Slice loop of test-verify-calculation.ts lines 176-209: for each
adjacent pair the duration start→next.current_timestamp is attributed to
the earlier record's condition, where start is `last_timstamp` for the
very first record when present and `current_timestamp` otherwise; the
last record contributes nothing and unknown conditions are dropped. -/
def sliceHoursAux : Bool → List ConditionRecord → HoursBreakdown
  | _, [] => { heatingUp := 0, iddle := 0, production := 0, machineOff := 0 }
  | _, [_] => { heatingUp := 0, iddle := 0, production := 0, machineOff := 0 }
  | isFirst, c :: next :: rest =>
    let startTime : ℤ :=
      if isFirst then
        match c.last_timstamp with
        | some t => t
        | none => c.current_timestamp
      else c.current_timestamp
    let dur : ℚ := ((next.current_timestamp - startTime : ℤ) : ℚ) / (1000 * 60 * 60)
    let tail := sliceHoursAux false (next :: rest)
    match c.current_condition with
    | Condition.HeatingUp => { tail with heatingUp := tail.heatingUp + dur }
    | Condition.Iddle => { tail with iddle := tail.iddle + dur }
    | Condition.MachineProduction => { tail with production := tail.production + dur }
    | Condition.MachineOFF => { tail with machineOff := tail.machineOff + dur }
    | Condition.UNKNOWN => tail

/-- Reference hours computation of the repository's verification script
(test-verify-calculation.ts "CALCULATE HOURS: Duration to next record"). -/
def verifyScriptHours (allConditions : List ConditionRecord) : HoursBreakdown :=
  sliceHoursAux true allConditions

/-! ### Temperature dwell tracker (temperature-tracker.ts, fallback variant) -/

/-- Row of `tbl_log_history` as the tracker reads it: `timestamp` plus
the nullable decimal-string `temperature` column. -/
structure LogRow where
  timestamp : ℤ
  temperature : Option ℚ
deriving DecidableEq, Repr

/-- Walk of `TemperatureTracker.fetchFromDatabase` (temperature-tracker.ts
lines 190-235) over the 90-minute window fetch (ascending): the first
timestamp from which `parseFloat(temperature || '0')` stayed ≥ 300, reset
to null by every row reading below 300. -/
def walkHeatingUpSince (logs : List LogRow) : Option ℤ :=
  logs.foldl
    (fun acc log =>
      if parseOrZero log.temperature ≥ 300 then
        match acc with
        | none => some log.timestamp
        | some t => some t
      else none)
    none

/-- Source `TemperatureTracker.checkLastConditionFallback`
(temperature-tracker.ts lines 291-312): true iff the machine's most
recent persisted condition is `MachineProduction` or `Iddle`. -/
def checkLastConditionFallback (lastCondition : Option Condition) : Bool :=
  match lastCondition with
  | none => false
  | some c =>
    decide (c = Condition.MachineProduction) || decide (c = Condition.Iddle)

/-- Source `TemperatureTracker.check` (temperature-tracker.ts lines
243-284), pure core.  `logs` is the 90-minute `LogHistory` window fetch
for the machine (ascending by timestamp), `now` the wall clock at the
duration test, `lastCondition` the machine's most recent persisted
condition.  THRESHOLD = 300 and DURATION_MS = 3600000 as in the source. -/
def TemperatureTracker.check (temperature : ℚ) (logs : List LogRow) (now : ℤ)
    (lastCondition : Option Condition) : Bool :=
  if temperature < 300 then false
  else
    match walkHeatingUpSince logs with
    | some t =>
      if now - t ≥ 3600000 then true else checkLastConditionFallback lastCondition
    | none => checkLastConditionFallback lastCondition

/-! ### Condition classifier and condition store (data-processor.ts) -/

/-- Bag of per-parameter sensor values (`values` of a `SensorReading`,
and the fields merged onto a `MachineReading`).  The TS type lists five
keys; `capstand_speed` additionally occurs at runtime through a
data-entry typo in some parameter mappings, which the source reads
defensively. -/
structure SensorValues where
  kwh : Option ℚ
  temperature : Option ℚ
  on_contact : Option ℚ
  alarm_contact : Option ℚ
  capstan_speed : Option ℚ
  capstand_speed : Option ℚ
deriving DecidableEq, Repr

/-- The empty `values` bag (no key present). -/
def emptyValues : SensorValues :=
  { kwh := none, temperature := none, on_contact := none, alarm_contact := none,
    capstan_speed := none, capstand_speed := none }

/-- Aggregated per-machine reading (type.ts `MachineReading`).  In the
source the merged values live as top-level optional fields next to
`machineId`/`machineName`/`timestamp`; the embedding keeps them in a
`values` sub-record, which is the same data. -/
structure MachineReading where
  machineId : ℤ
  machineName : String
  timestamp : ℤ
  values : SensorValues
deriving DecidableEq, Repr

/-- JavaScript `x || y` on an optional numeric field: an absent field and
a present 0 are both falsy. -/
def jsOr (x : Option ℚ) (y : ℚ) : ℚ :=
  match x with
  | none => y
  | some v => if v = 0 then y else v

/-- Source `checkConditions` (data-processor.ts lines 61-117) as a
function of the reading and the dwell result.  The source obtains
`temp300Over1Hour` by calling `tempTracker.check` (modelled separately as
`TemperatureTracker.check`); everything else is the pure branch chain
below, with `on_contact`, `alarm_contact` read as `reading.x || 0` and
the capstan speed as `reading.capstan_speed || reading.capstand_speed || 0`. -/
def checkConditions (reading : MachineReading) (temp300Over1Hour : Bool) : Condition :=
  let onContact := jsOr reading.values.on_contact 0
  let alarmContact := jsOr reading.values.alarm_contact 0
  let capstanSpeed := jsOr reading.values.capstan_speed (jsOr reading.values.capstand_speed 0)
  if onContact = 0 then Condition.MachineOFF
  else if onContact = 1 ∧ temp300Over1Hour = false then Condition.HeatingUp
  else if onContact = 1 ∧ temp300Over1Hour = true ∧ alarmContact = 0 then Condition.Iddle
  else if onContact = 1 ∧ temp300Over1Hour = true ∧ alarmContact = 1 ∧ capstanSpeed = 1 then
    Condition.MachineProduction
  else if onContact = 1 ∧ temp300Over1Hour = true ∧ alarmContact = 1 ∧ capstanSpeed = 0 then
    Condition.Iddle
  else Condition.UNKNOWN

/-- New `tbl_condition` row built by `updateCondition` (data-processor.ts
lines 160-170): the `last*` columns mirror the prior latest record
(`existing?.field || null`). -/
def mkConditionRow (existing : Option ConditionRecord) (condition : Condition)
    (kwh : Option ℚ) (timestamp : ℤ) : ConditionRecord :=
  { current_timestamp := timestamp
    current_condition := condition
    current_kwh := kwh
    last_timstamp := existing.map (fun e => e.current_timestamp)
    last_condition := existing.map (fun e => e.current_condition)
    last_kwh := existing.bind (fun e => e.current_kwh) }

/-- Source `updateCondition` (data-processor.ts lines 121-199) acting on
one machine's condition log, newest record first (so the head is the row
`findFirst orderBy current_timestamp desc` returns whenever timestamps
are inserted in increasing order).  `reading` and `skipLogHistory` only
drive the separate `LogHistory` insert and never affect the condition
log, so they are accepted and ignored here. -/
def updateCondition (log : List ConditionRecord) (condition : Condition)
    (kwh : Option ℚ) (timestamp : ℤ) (reading : Option MachineReading)
    (forceSnapshot : Bool) (skipLogHistory : Bool) : List ConditionRecord :=
  let existing := log.head?
  let conditionChanged : Bool :=
    match existing with
    | none => true
    | some e => decide (e.current_condition ≠ condition)
  let _ := reading
  let _ := skipLogHistory
  if conditionChanged = false ∧ forceSnapshot = false then log
  else
    match existing with
    | some e =>
      if e.current_condition = condition ∧ timestamp - e.current_timestamp < 5000 then log
      else mkConditionRow existing condition kwh timestamp :: log
    | none => mkConditionRow existing condition kwh timestamp :: log

/-- One `record()` call against the condition store, for replaying
sequences of calls (polling loop and snapshot cron) on one machine. -/
structure RecordOp where
  condition : Condition
  kwh : Option ℚ
  timestamp : ℤ
  forceSnapshot : Bool
deriving DecidableEq, Repr

/-- Replay of a sequence of `record()` calls on one machine's condition
log, starting from an empty log. -/
def runRecordOps (ops : List RecordOp) : List ConditionRecord :=
  ops.foldl
    (fun log op =>
      updateCondition log op.condition op.kwh op.timestamp none op.forceSnapshot false)
    []

/-! ### Reading aggregation (data-processor.ts `aggregateReadings`) -/

/-- Per-sensor reading (type.ts `SensorReading`), keeping the fields the
aggregation touches. -/
structure SensorReading where
  machineId : ℤ
  machineName : String
  timestamp : ℤ
  values : SensorValues
  success : Bool
deriving DecidableEq, Repr

/-- One field of `Object.assign(target, source)`: a key present in the
source overwrites, an absent key leaves the target alone. -/
def assignField (old new : Option ℚ) : Option ℚ :=
  match new with
  | some v => some v
  | none => old

/-- `Object.assign(machineReading, reading.values)` (data-processor.ts
line 26) on the closed key set. -/
def assignValues (target source : SensorValues) : SensorValues :=
  { kwh := assignField target.kwh source.kwh
    temperature := assignField target.temperature source.temperature
    on_contact := assignField target.on_contact source.on_contact
    alarm_contact := assignField target.alarm_contact source.alarm_contact
    capstan_speed := assignField target.capstan_speed source.capstan_speed
    capstand_speed := assignField target.capstand_speed source.capstand_speed }

/-- Merge of one successful reading into an existing map entry. -/
def aggUpdate (m : MachineReading) (r : SensorReading) : MachineReading :=
  { m with values := assignValues m.values r.values }

/-- Fresh map entry created for the first successful reading of a machine
(data-processor.ts lines 16-23): identity fields and timestamp from that
reading, values still empty (they are merged right after creation). -/
def aggBase (r : SensorReading) : MachineReading :=
  { machineId := r.machineId, machineName := r.machineName,
    timestamp := r.timestamp, values := emptyValues }

/-- Loop body of `aggregateReadings` (data-processor.ts lines 12-27) with
the JS `Map` modelled as an insertion-ordered list keyed by `machineId`:
failed readings are skipped; an existing entry is merged in place; a
missing entry is appended and then merged. -/
def aggStep (acc : List MachineReading) (r : SensorReading) : List MachineReading :=
  if r.success = false then acc
  else if acc.any (fun m => decide (m.machineId = r.machineId)) then
    acc.map (fun m => if m.machineId = r.machineId then aggUpdate m r else m)
  else
    acc ++ [aggUpdate (aggBase r) r]

/-- Source `aggregateReadings` (data-processor.ts lines 9-30). -/
def aggregateReadings (readings : List SensorReading) : List MachineReading :=
  readings.foldl aggStep []

/-! ### License key material (lib/license.ts) -/

/-- Source `zeroPad` (lib/license.ts lines 37-42) on UTF-8 byte strings:
`Buffer.alloc(length, 0)` then copy the first
`min(strBuffer.length, length)` bytes of the input over the zeros. -/
def zeroPad (str : List Nat) (length : Nat) : List Nat :=
  let copied := min str.length length
  str.take copied ++ List.replicate (length - copied) 0

/-- Source `getSecretKey` (lib/license.ts lines 48-51):
`zeroPad(process.env.LICENSE_SECRET_KEY || '', 16)`; `none` models an
unset environment variable. -/
def getSecretKey (envKey : Option (List Nat)) : List Nat :=
  zeroPad (envKey.getD []) 16

/-- Source `getIV` (lib/license.ts lines 57-60):
`zeroPad(process.env.LICENSE_IV || '', 16)`. -/
def getIV (envIV : Option (List Nat)) : List Nat :=
  zeroPad (envIV.getD []) 16

/-! ### Specification-side definitions

The following definitions transcribe claim statements (not the source);
each is compared against the corresponding source embedding in the
theorems below. -/

/-- Hours between the first and last record of a list, written through
`head?`/`getLast?` (specification-side restatement used to characterise
`calculateHours`). -/
def specHoursOf (l : List ConditionRecord) : ℚ :=
  match l.head?, l.getLast? with
  | some f, some lr =>
    ((lr.current_timestamp - f.current_timestamp : ℤ) : ℚ) / (1000 * 60 * 60)
  | _, _ => 0

/-- Maximal runs of consecutive records carrying `target`, transcribing
claim C3's words: a segment starts at the first record of the condition
after a different condition (or the start of the day) and ends at the
last consecutive record of the condition. -/
def specRuns (target : Condition) (l : List ConditionRecord) : List (List ConditionRecord) :=
  match l with
  | [] => []
  | c :: rest =>
    if c.current_condition = target then
      (c :: rest.takeWhile (fun r => decide (r.current_condition = target)))
        :: specRuns target (rest.dropWhile (fun r => decide (r.current_condition = target)))
    else specRuns target rest
termination_by l.length
decreasing_by
  all_goals simp_wf
  all_goals simp only [List.length_cons, Nat.lt_succ_iff]
  all_goals exact (List.dropWhile_sublist _).length_le

/-- Energy of one run per claim C3: `end.currentKwh - start.lastKwh`
with a missing `lastKwh` read as 0. -/
def runKwh (g : List ConditionRecord) : ℚ :=
  match g.head?, g.getLast? with
  | some s, some e => parseOrZero e.current_kwh - parseOrZero s.last_kwh
  | _, _ => 0

/-- Per-condition kWh per claim C3: the sum of the energies of the
maximal runs of the target condition. -/
def specSegmentSum (target : Condition) (l : List ConditionRecord) : ℚ :=
  ((specRuns target l).map runKwh).sum

/-- Whole-day kWh as the source persists it, restated through
`head?`/`getLast?`: `current_kwh` of the last record minus `last_kwh` of
the first record (missing values read as 0). -/
def specTotalKwh (l : List ConditionRecord) : ℚ :=
  match l.head?, l.getLast? with
  | some f, some lr => parseOrZero lr.current_kwh - parseOrZero f.last_kwh
  | _, _ => 0

/-- Effective `on_contact` value the classifier compares (claim C5:
missing values read as 0). -/
def effOnContact (r : MachineReading) : ℚ := jsOr r.values.on_contact 0

/-- Effective `alarm_contact` value the classifier compares. -/
def effAlarmContact (r : MachineReading) : ℚ := jsOr r.values.alarm_contact 0

/-- Effective capstan speed: either spelling is accepted, with the
`capstan_speed` field consulted first (`x || y || 0`). -/
def effCapstanSpeed (r : MachineReading) : ℚ :=
  jsOr r.values.capstan_speed (jsOr r.values.capstand_speed 0)

/-- Claim C5's classification table as a decision tree over the three
effective values and the dwell result, with `UNKNOWN` for every reading
outside the enumerated rows. -/
def conditionTable (onContact alarmContact capstanSpeed : ℚ) (hot : Bool) : Condition :=
  if onContact = 0 then Condition.MachineOFF
  else if onContact ≠ 1 then Condition.UNKNOWN
  else if hot = false then Condition.HeatingUp
  else if alarmContact = 0 then Condition.Iddle
  else if alarmContact ≠ 1 then Condition.UNKNOWN
  else if capstanSpeed = 1 then Condition.MachineProduction
  else if capstanSpeed = 0 then Condition.Iddle
  else Condition.UNKNOWN

/-- Claim C7's invariant: no two distinct records of the log share a
condition with timestamps within 5 s of each other (adjacent or not). -/
def NoNearDuplicates (log : List ConditionRecord) : Prop :=
  ∀ r1 ∈ log, ∀ r2 ∈ log, r1 ≠ r2 →
    r1.current_condition = r2.current_condition →
      5000 ≤ |r1.current_timestamp - r2.current_timestamp|

/-- Weakened (adjacent-only) deduplication invariant: consecutive log
records with the same condition are at least 5 s apart.  The log is kept
newest first, so `newer` precedes `older`. -/
def AdjacentDedup (log : List ConditionRecord) : Prop :=
  List.Chain'
    (fun newer older =>
      newer.current_condition = older.current_condition →
        5000 ≤ newer.current_timestamp - older.current_timestamp)
    log

/-- Timestamps of a replayed `record()` sequence strictly increase (the
polling loop and cron stamp each call with the current wall clock). -/
def StrictlyIncreasingOps (ops : List RecordOp) : Prop :=
  List.Pairwise (fun a b => a.timestamp < b.timestamp) ops

/-- Claim C8's description of one aggregated machine: identity and
timestamp from the first successful reading of the machine, values
merged over all its successful readings in input order. -/
def aggSpecEntry : List SensorReading → List MachineReading
  | [] => []
  | r :: rs => [(r :: rs).foldl aggUpdate (aggBase r)]

/-- Restriction of `aggStep` to the readings of a single machine, used
to relate the full fold to `aggSpecEntry`. -/
def aggSubStep (sub : List MachineReading) (r : SensorReading) : List MachineReading :=
  match sub with
  | [] => [aggUpdate (aggBase r) r]
  | _ :: _ => sub.map (fun m => aggUpdate m r)

/-! ### Concrete inputs used by counterexamples and witnesses -/

/-- Record sequence of the spec's daily roll-up example (scenario 5):
Production 10:00, Iddle 12:00, Production 14:00, Production 16:00, with
the kwh figures quoted there (timestamps in ms from local midnight). -/
def exDayRecords : List ConditionRecord :=
  [ { current_timestamp := 36000000, current_condition := Condition.MachineProduction,
      current_kwh := some 100, last_timstamp := none, last_condition := none,
      last_kwh := some 98 },
    { current_timestamp := 43200000, current_condition := Condition.Iddle,
      current_kwh := some 110, last_timstamp := some 36000000,
      last_condition := some Condition.MachineProduction, last_kwh := some 110 },
    { current_timestamp := 50400000, current_condition := Condition.MachineProduction,
      current_kwh := some 115, last_timstamp := some 43200000,
      last_condition := some Condition.Iddle, last_kwh := some 115 },
    { current_timestamp := 57600000, current_condition := Condition.MachineProduction,
      current_kwh := some 125, last_timstamp := some 50400000,
      last_condition := some Condition.MachineProduction, last_kwh := some 115 } ]

/-- Machine-day with one HeatingUp hour and two Production records,
used against the shared-meter split: stats give heatingUpKwh = 5 and
productionHours = 1. -/
def exSharedRecords : List ConditionRecord :=
  [ { current_timestamp := 0, current_condition := Condition.HeatingUp,
      current_kwh := some 5, last_timstamp := none, last_condition := none,
      last_kwh := some 0 },
    { current_timestamp := 3600000, current_condition := Condition.MachineProduction,
      current_kwh := some 5, last_timstamp := some 0,
      last_condition := some Condition.HeatingUp, last_kwh := some 5 },
    { current_timestamp := 7200000, current_condition := Condition.MachineProduction,
      current_kwh := some 20, last_timstamp := some 3600000,
      last_condition := some Condition.MachineProduction, last_kwh := some 5 } ]

/-- Machine-day ending in a MachineOFF record that accumulates 2 kWh:
the per-condition figures sum to 10 while the persisted total is 12. -/
def exOffDayRecords : List ConditionRecord :=
  [ { current_timestamp := 0, current_condition := Condition.MachineProduction,
      current_kwh := some 10, last_timstamp := none, last_condition := none,
      last_kwh := some 0 },
    { current_timestamp := 3600000, current_condition := Condition.MachineOFF,
      current_kwh := some 12, last_timstamp := some 0,
      last_condition := some Condition.MachineProduction, last_kwh := some 10 } ]

/-- Three `record()` calls — Production at 0 ms, Iddle at 3000 ms,
Production at 4000 ms — leaving two Production records 4 s apart. -/
def dupOps : List RecordOp :=
  [ { condition := Condition.MachineProduction, kwh := none, timestamp := 0,
      forceSnapshot := false },
    { condition := Condition.Iddle, kwh := none, timestamp := 3000,
      forceSnapshot := false },
    { condition := Condition.MachineProduction, kwh := none, timestamp := 4000,
      forceSnapshot := false } ]

/-- First condition row produced by replaying `dupOps` (Production at
0 ms). -/
def dupRowEarly : ConditionRecord :=
  { current_timestamp := 0, current_condition := Condition.MachineProduction,
    current_kwh := none, last_timstamp := none, last_condition := none, last_kwh := none }

/-- Third condition row produced by replaying `dupOps` (Production at
4000 ms, 4 s after the first Production row). -/
def dupRowLate : ConditionRecord :=
  { current_timestamp := 4000, current_condition := Condition.MachineProduction,
    current_kwh := none, last_timstamp := some 3000,
    last_condition := some Condition.Iddle, last_kwh := none }

/-! ### Helper lemmas -/

/-- For any record list, the source's `calculateHours` computes the
head-to-last timestamp difference in hours. -/
theorem calculateHours_eq_specHours (l : List ConditionRecord) :
    calculateHours l = specHoursOf l := by
  cases l with
  | nil => rfl
  | cons r rs => simp [calculateHours, specHoursOf, List.getLast?_cons]

/-- The guarded per-condition hours field of `calculateDailyStats`
equals `specHoursOf` of the filtered list. -/
theorem guardedHours_eq_specHours (l : List ConditionRecord) :
    (if l.length > 0 then calculateHours l else 0) = specHoursOf l := by
  cases l with
  | nil => rfl
  | cons r rs => simp [calculateHours_eq_specHours]

/-- For any record list, `totalKwhOf` equals the head-to-last kWh
difference. -/
theorem totalKwhOf_eq_specTotalKwh (l : List ConditionRecord) :
    totalKwhOf l = specTotalKwh l := by
  cases l with
  | nil => rfl
  | cons r rs => simp [totalKwhOf, specTotalKwh, List.getLast?_cons]

/-! ### C10 -/

/-- C10: `zeroPad` is total on over-long inputs and silently truncates
them to their first 16 bytes, so any two key strings sharing a 16-byte
prefix yield identical decryption keys. -/
theorem C10_zero_pad_truncates (k1 k2 : List Nat)
    (h1 : 16 < k1.length) (h2 : 16 < k2.length)
    (h : k1.take 16 = k2.take 16) :
    zeroPad k1 16 = k1.take 16 ∧ getSecretKey (some k1) = getSecretKey (some k2) := by
  have m1 : min k1.length 16 = 16 := Nat.min_eq_right (Nat.le_of_lt h1)
  have m2 : min k2.length 16 = 16 := Nat.min_eq_right (Nat.le_of_lt h2)
  constructor
  · simp [zeroPad, m1]
  · simp [getSecretKey, zeroPad, m1, m2, h]

/-- Witness for C10 at two concrete 17-byte keys sharing a 16-byte
prefix. -/
theorem C10_zero_pad_truncates_witness :
    zeroPad (List.replicate 17 1) 16 = (List.replicate 17 1).take 16 ∧
      getSecretKey (some (List.replicate 17 1)) =
        getSecretKey (some (List.replicate 16 1 ++ [2])) :=
  C10_zero_pad_truncates (List.replicate 17 1) (List.replicate 16 1 ++ [2])
    (by decide) (by decide) (by decide)

/-! ### C9 -/

/-- C9: a `LogHistory` row whose temperature column is null is read as 0
by the dwell walk, so it resets `heatingUpSince`: the walk over any
window containing such a row equals the walk over the part after it. -/
theorem C9_null_temperature_resets :
    parseOrZero none = 0 ∧
      ∀ (pre : List LogRow) (row : LogRow) (post : List LogRow),
        row.temperature = none →
          walkHeatingUpSince (pre ++ row :: post) = walkHeatingUpSince post := by
  refine ⟨rfl, ?_⟩
  intro pre row post h
  unfold walkHeatingUpSince
  rw [List.foldl_append, List.foldl_cons, h]
  norm_num [parseOrZero]

/-- Witness for C9: a single null-temperature row at 60000 ms splits an
otherwise continuous hot window. -/
theorem C9_null_temperature_resets_witness :
    walkHeatingUpSince
        [{ timestamp := 0, temperature := some 350 },
          { timestamp := 60000, temperature := none },
          { timestamp := 120000, temperature := some 350 }] =
      walkHeatingUpSince [{ timestamp := 120000, temperature := some 350 }] :=
  C9_null_temperature_resets.2 [{ timestamp := 0, temperature := some 350 }]
    { timestamp := 60000, temperature := none }
    [{ timestamp := 120000, temperature := some 350 }] rfl

/-! ### C4 -/

/-- C4 counterexample: with temperature 350, a window whose walk yields
`heatingUpSince = 0` and a clock only 30 minutes later, the claim says
the predicate must return false (and the fallback must not be
consulted); the source returns true through the fallback because the
latest persisted condition is `Iddle`. -/
theorem C4_counterexample :
    walkHeatingUpSince [{ timestamp := 0, temperature := some 350 }] = some 0 ∧
      TemperatureTracker.check 350 [{ timestamp := 0, temperature := some 350 }]
          1800000 (some Condition.Iddle) = true ∧
      ¬ (3600000 ≤ (1800000 : ℤ) - 0) := by
  refine ⟨?_, ?_, by decide⟩
  · norm_num [walkHeatingUpSince, parseOrZero]
  · norm_num [TemperatureTracker.check, walkHeatingUpSince, parseOrZero,
      checkLastConditionFallback]

/-- C4 amended: for temperature ≥ 300 the predicate returns true iff the
walk yields a hot-segment start at least one hour old, or the
last-persisted-condition fallback fires; the fallback is consulted
whenever the duration test fails, not only when the window has no
qualifying sample. -/
theorem C4_amended_fallback (T : ℚ) (logs : List LogRow) (now : ℤ)
    (last : Option Condition) (hT : 300 ≤ T) :
    TemperatureTracker.check T logs now last = true ↔
      (∃ t, walkHeatingUpSince logs = some t ∧ 3600000 ≤ now - t) ∨
        checkLastConditionFallback last = true := by
  unfold TemperatureTracker.check
  rw [if_neg (not_lt.mpr hT)]
  cases hwalk : walkHeatingUpSince logs with
  | none => simp
  | some t =>
    by_cases hd : now - t ≥ 3600000
    · simp [hd]
    · simp [hd]

/-- Witness for C4 amended at temperature 350, a window starting 70
minutes before `now` and no persisted condition. -/
theorem C4_amended_fallback_witness :
    (300 : ℚ) ≤ 350 ∧
      (TemperatureTracker.check 350 [{ timestamp := 0, temperature := some 350 }]
            4200000 none = true ↔
        (∃ t, walkHeatingUpSince [{ timestamp := 0, temperature := some 350 }] = some t ∧
            3600000 ≤ (4200000 : ℤ) - t) ∨
          checkLastConditionFallback none = true) :=
  ⟨by norm_num,
    C4_amended_fallback 350 [{ timestamp := 0, temperature := some 350 }] 4200000 none
      (by norm_num)⟩

/-! ### C5 -/

/-- C5: the condition classifier is a pure function of the reading and
the dwell result, equal to the claimed table over the effective values
(missing fields read as 0, either capstan spelling accepted):
`MachineOFF` for `on_contact = 0`; `HeatingUp` for `on_contact = 1` and
not hot; `Iddle` for hot with `alarm_contact = 0`; `MachineProduction`
for hot, `alarm_contact = 1`, capstan 1; `Iddle` for hot,
`alarm_contact = 1`, capstan 0; `UNKNOWN` otherwise. -/
theorem C5_classifier_table (r : MachineReading) (hot : Bool) :
    checkConditions r hot =
      conditionTable (effOnContact r) (effAlarmContact r) (effCapstanSpeed r) hot := by
  unfold checkConditions conditionTable effOnContact effAlarmContact effCapstanSpeed
  by_cases h0 : jsOr r.values.on_contact 0 = 0 <;>
    by_cases h1 : jsOr r.values.on_contact 0 = 1 <;>
    cases hot <;>
    by_cases a0 : jsOr r.values.alarm_contact 0 = 0 <;>
    by_cases a1 : jsOr r.values.alarm_contact 0 = 1 <;>
    by_cases c1 : jsOr r.values.capstan_speed (jsOr r.values.capstand_speed 0) = 1 <;>
    by_cases c0 : jsOr r.values.capstan_speed (jsOr r.values.capstand_speed 0) = 0 <;>
    simp_all

/-! ### C1 -/

/-- C1 counterexample: on the claim's own record sequence (Production
10:00, Iddle 12:00, Production 14:00, Production 16:00) the daily
calculator reports productionHours = 6 and iddleHours = 0 instead of the
claimed 4 and 2; the repository's verification script, which does
implement the claimed slice attribution, reports 4 and 2. -/
theorem C1_counterexample :
    (calculateDailyStats exDayRecords).productionHours = 6 ∧
      (calculateDailyStats exDayRecords).iddleHours = 0 ∧
      (calculateDailyStats exDayRecords).productionHours ≠ 4 ∧
      (calculateDailyStats exDayRecords).iddleHours ≠ 2 ∧
      (verifyScriptHours exDayRecords).production = 4 ∧
      (verifyScriptHours exDayRecords).iddle = 2 := by
  refine ⟨?_, ?_, ?_, ?_, ?_, ?_⟩ <;>
    · simp only [calculateDailyStats, calculateHours, exDayRecords, verifyScriptHours,
        sliceHoursAux, List.filter_cons, List.filter_nil]
      try simp [calculateHours, sliceHoursAux]
      try norm_num

/-- C1 amended: each per-condition hours figure is the difference
between the last and the first `current_timestamp` among that day's
records of that condition (0 when there are none); `last_timstamp` and
the positions of other conditions play no role. -/
theorem C1_amended_hours (conditions : List ConditionRecord) :
    (calculateDailyStats conditions).heatingUpHours =
        specHoursOf (conditions.filter
          (fun c => decide (c.current_condition = Condition.HeatingUp))) ∧
      (calculateDailyStats conditions).iddleHours =
        specHoursOf (conditions.filter
          (fun c => decide (c.current_condition = Condition.Iddle))) ∧
      (calculateDailyStats conditions).productionHours =
        specHoursOf (conditions.filter
          (fun c => decide (c.current_condition = Condition.MachineProduction))) := by
  by_cases hc : conditions.isEmpty
  · rw [List.isEmpty_iff] at hc
    subst hc
    refine ⟨rfl, rfl, rfl⟩
  · unfold calculateDailyStats
    rw [if_neg (by simp [hc])]
    exact ⟨guardedHours_eq_specHours _, guardedHours_eq_specHours _,
      guardedHours_eq_specHours _⟩

/-! ### C2 -/

/-- C2 counterexample: a shared-meter day (`is_one_block = false`) whose
computed heatingUpKwh is 5; the persisted `heat_up_kwh` is still 5, not
the claimed half (5/2). -/
theorem C2_counterexample :
    (saveDailyMcRunHour exSharedRecords [true]).is_one_block = false ∧
      (calculateDailyStats exSharedRecords).heatingUpKwh = 5 ∧
      (saveDailyMcRunHour exSharedRecords [true]).heat_up_kwh = 5 ∧
      (saveDailyMcRunHour exSharedRecords [true]).heat_up_kwh ≠
        (calculateDailyStats exSharedRecords).heatingUpKwh / 2 := by
  refine ⟨?_, ?_, ?_, ?_⟩ <;>
    · simp only [saveDailyMcRunHour, calculateDailyStats, calculateKwhDelta, kwhSegments,
        segmentKwh, parseOrZero, calculateHours, totalKwhOf, totalHoursOf, exSharedRecords,
        List.filter_cons, List.filter_nil]
      try simp [segmentKwh, parseOrZero, calculateHours]
      try norm_num

/-- C2 amended: when `is_one_block = false` only the total and the
production kWh figures are halved; heatingUp and iddle kWh are persisted
unsplit, and every hours figure is unchanged. -/
theorem C2_amended_split (allRecords : List ConditionRecord) (sharing : List Bool)
    (h : (saveDailyMcRunHour allRecords sharing).is_one_block = false) :
    (saveDailyMcRunHour allRecords sharing).mc_run_kwh = totalKwhOf allRecords / 2 ∧
      (saveDailyMcRunHour allRecords sharing).mc_production_kwh =
        (calculateDailyStats allRecords).productionKwh / 2 ∧
      (saveDailyMcRunHour allRecords sharing).heat_up_kwh =
        (calculateDailyStats allRecords).heatingUpKwh ∧
      (saveDailyMcRunHour allRecords sharing).iddle_kwh =
        (calculateDailyStats allRecords).iddleKwh ∧
      (saveDailyMcRunHour allRecords sharing).mc_run_h = totalHoursOf allRecords ∧
      (saveDailyMcRunHour allRecords sharing).heat_up_h =
        (calculateDailyStats allRecords).heatingUpHours ∧
      (saveDailyMcRunHour allRecords sharing).iddle_h =
        (calculateDailyStats allRecords).iddleHours ∧
      (saveDailyMcRunHour allRecords sharing).mc_production_h =
        (calculateDailyStats allRecords).productionHours := by
  simp only [saveDailyMcRunHour] at h ⊢
  simp [h]

/-- Witness for C2 amended on the concrete shared-meter day. -/
theorem C2_amended_split_witness :
    (saveDailyMcRunHour exSharedRecords [true]).is_one_block = false ∧
      (saveDailyMcRunHour exSharedRecords [true]).mc_run_kwh =
        totalKwhOf exSharedRecords / 2 ∧
      (saveDailyMcRunHour exSharedRecords [true]).heat_up_kwh =
        (calculateDailyStats exSharedRecords).heatingUpKwh :=
  have h : (saveDailyMcRunHour exSharedRecords [true]).is_one_block = false := by
    simp only [saveDailyMcRunHour, calculateDailyStats, calculateKwhDelta, kwhSegments,
      segmentKwh, parseOrZero, calculateHours, totalKwhOf, totalHoursOf, exSharedRecords,
      List.filter_cons, List.filter_nil]
    try simp [segmentKwh, parseOrZero, calculateHours]
    try norm_num
  ⟨h, (C2_amended_split exSharedRecords [true] h).1,
    (C2_amended_split exSharedRecords [true] h).2.2.1⟩

/-! ### C3 counterexample -/

/-- C3 counterexample: on a day ending in a MachineOFF record that
accumulated 2 kWh, the per-condition figures sum to 10 while the
persisted (unsplit) total kWh is 12, so the total is not the sum across
the three counted conditions. -/
theorem C3_counterexample :
    (saveDailyMcRunHour exOffDayRecords []).is_one_block = true ∧
      (saveDailyMcRunHour exOffDayRecords []).mc_run_kwh = 12 ∧
      (calculateDailyStats exOffDayRecords).heatingUpKwh +
          (calculateDailyStats exOffDayRecords).iddleKwh +
          (calculateDailyStats exOffDayRecords).productionKwh = 10 ∧
      (saveDailyMcRunHour exOffDayRecords []).mc_run_kwh ≠
        (calculateDailyStats exOffDayRecords).heatingUpKwh +
          (calculateDailyStats exOffDayRecords).iddleKwh +
          (calculateDailyStats exOffDayRecords).productionKwh := by
  refine ⟨?_, ?_, ?_, ?_⟩ <;>
    · simp only [saveDailyMcRunHour, calculateDailyStats, calculateKwhDelta, kwhSegments,
        segmentKwh, parseOrZero, calculateHours, totalKwhOf, totalHoursOf, exOffDayRecords,
        List.filter_cons, List.filter_nil]
      try simp [segmentKwh, parseOrZero, calculateHours]
      try norm_num

/-! ### C6 -/

/-- C6: `record()` inserts a new condition row iff (no existing record,
or the latest record's condition differs, or `forceSnapshot`) and the
deduplication guard does not fire (latest record with the same condition
less than 5 s old); in every other case the log is unchanged.  The
inserted row is exactly `mkConditionRow` of the latest record. -/
theorem C6_record_insert_iff (log : List ConditionRecord) (condition : Condition)
    (kwh : Option ℚ) (timestamp : ℤ) (reading : Option MachineReading)
    (forceSnapshot skipLogHistory : Bool) :
    (updateCondition log condition kwh timestamp reading forceSnapshot skipLogHistory =
        mkConditionRow log.head? condition kwh timestamp :: log ↔
      ((log.head? = none ∨
          (∃ e, log.head? = some e ∧ e.current_condition ≠ condition) ∨
          forceSnapshot = true) ∧
        ¬ ∃ e, log.head? = some e ∧ e.current_condition = condition ∧
            timestamp - e.current_timestamp < 5000)) ∧
      (updateCondition log condition kwh timestamp reading forceSnapshot skipLogHistory = log ∨
        updateCondition log condition kwh timestamp reading forceSnapshot skipLogHistory =
          mkConditionRow log.head? condition kwh timestamp :: log) := by
  cases log with
  | nil => simp [updateCondition]
  | cons e rest =>
    by_cases hc : e.current_condition = condition
    · cases forceSnapshot with
      | false => simp [updateCondition, hc]
      | true =>
        by_cases hd : timestamp - e.current_timestamp < 5000
        · simp [updateCondition, hc, hd]
        · simp [updateCondition, hc, hd]
    · simp [updateCondition, hc, Ne.symm hc]

/-! ### C7 -/

/-- C7 counterexample: replaying Production at 0 ms, Iddle at 3000 ms,
Production at 4000 ms leaves two Production records only 4 s apart — the
deduplication guard compares against the latest record only, so the
claimed log-wide invariant fails. -/
theorem C7_counterexample : ¬ NoNearDuplicates (runRecordOps dupOps) := by
  intro h
  have h1 : dupRowLate ∈ runRecordOps dupOps := by decide
  have h2 : dupRowEarly ∈ runRecordOps dupOps := by decide
  have habs := h dupRowLate h1 dupRowEarly h2 (by decide) (by decide)
  revert habs
  decide

/-- One `record()` call preserves the adjacent-only deduplication
invariant: the guard compares the candidate row against the latest
record, so the freshly inserted head is at least 5 s after the previous
head whenever they share a condition. -/
theorem updateCondition_adjacent (log : List ConditionRecord) (condition : Condition)
    (kwh : Option ℚ) (timestamp : ℤ) (reading : Option MachineReading)
    (forceSnapshot skipLogHistory : Bool) (h : AdjacentDedup log) :
    AdjacentDedup
      (updateCondition log condition kwh timestamp reading forceSnapshot skipLogHistory) := by
  cases log with
  | nil =>
    simp [updateCondition, AdjacentDedup]
  | cons e rest =>
    by_cases hc : e.current_condition = condition
    · cases forceSnapshot with
      | false => simpa [updateCondition, hc] using h
      | true =>
        by_cases hd : timestamp - e.current_timestamp < 5000
        · simpa [updateCondition, hc, hd] using h
        · have hred :
              updateCondition (e :: rest) condition kwh timestamp reading true skipLogHistory =
                mkConditionRow (some e) condition kwh timestamp :: e :: rest := by
            simp [updateCondition, hc, hd]
          rw [hred]
          unfold AdjacentDedup at h ⊢
          rw [List.chain'_cons]
          refine ⟨?_, h⟩
          intro _
          simp only [mkConditionRow]
          omega
    · have hred :
          updateCondition (e :: rest) condition kwh timestamp reading forceSnapshot
              skipLogHistory =
            mkConditionRow (some e) condition kwh timestamp :: e :: rest := by
        simp [updateCondition, hc]
      rw [hred]
      unfold AdjacentDedup at h ⊢
      rw [List.chain'_cons]
      refine ⟨?_, h⟩
      intro hcontra
      simp only [mkConditionRow] at hcontra
      exact absurd hcontra.symm hc

/-- Replaying any sequence of `record()` calls from a log satisfying the
adjacent deduplication invariant preserves it. -/
theorem runRecordOps_adjacent_aux (ops : List RecordOp) :
    ∀ log : List ConditionRecord, AdjacentDedup log →
      AdjacentDedup
        (ops.foldl
          (fun log op =>
            updateCondition log op.condition op.kwh op.timestamp none op.forceSnapshot false)
          log) := by
  induction ops with
  | nil => intro log h; exact h
  | cons op ops ih =>
    intro log h
    simp only [List.foldl_cons]
    exact ih _ (updateCondition_adjacent log op.condition op.kwh op.timestamp none
      op.forceSnapshot false h)

/-- C7 amended: for any strictly time-ordered sequence of `record()`
calls, adjacent records of the resulting log never share a condition
within 5 s; only the log-wide (non-adjacent) version of the invariant
fails. -/
theorem C7_amended_adjacent (ops : List RecordOp) (h : StrictlyIncreasingOps ops) :
    AdjacentDedup (runRecordOps ops) := by
  have _hts := h
  exact runRecordOps_adjacent_aux ops [] List.chain'_nil

/-- Witness for C7 amended on the concrete three-call replay. -/
theorem C7_amended_adjacent_witness :
    StrictlyIncreasingOps dupOps ∧ AdjacentDedup (runRecordOps dupOps) :=
  ⟨by unfold StrictlyIncreasingOps; decide,
    C7_amended_adjacent dupOps (by unfold StrictlyIncreasingOps; decide)⟩

/-! ### C3 amended: segment equivalence -/

/-- Scanning with an open segment absorbs the maximal matching front run
into that segment and then continues closed. -/
theorem kwhSegments_open (target : Condition) (l : List ConditionRecord) :
    ∀ s e : ConditionRecord,
      kwhSegments target l (some (s, e)) =
        (s, (l.takeWhile (fun r => decide (r.current_condition = target))).getLastD e) ::
          kwhSegments target
            (l.dropWhile (fun r => decide (r.current_condition = target))) none := by
  induction l with
  | nil => intro s e; simp [kwhSegments]
  | cons r rest ih =>
    intro s e
    by_cases h : r.current_condition = target
    · rw [List.takeWhile_cons_of_pos (by simp [h]), List.dropWhile_cons_of_pos (by simp [h])]
      simp only [kwhSegments, if_pos h]
      rw [ih s r]
      simp only [List.getLastD_eq_getLast?]
      generalize List.takeWhile (fun r => decide (r.current_condition = target)) rest = tw
      cases tw <;> simp [List.getLast?_cons]
    · rw [List.takeWhile_cons_of_neg (by simp [h]), List.dropWhile_cons_of_neg (by simp [h])]
      simp [kwhSegments, h]

/-- Zero runs come out of an empty day. -/
theorem specRuns_nil (target : Condition) : specRuns target [] = [] := by
  rw [specRuns]

/-- The closed segment scan of the source computes exactly the maximal
runs of the claim, up to taking each run's endpoints (length-bounded
strong induction). -/
theorem kwhSegments_eq_specRuns_aux (target : Condition) :
    ∀ (n : Nat) (l : List ConditionRecord), l.length ≤ n →
      (kwhSegments target l none).map segmentKwh = (specRuns target l).map runKwh := by
  intro n
  induction n with
  | zero =>
    intro l hl
    rw [List.length_eq_zero.mp (Nat.le_zero.mp hl)]
    simp [specRuns_nil, kwhSegments]
  | succ n ih =>
    intro l hl
    cases l with
    | nil => simp [specRuns_nil, kwhSegments]
    | cons c rest =>
      by_cases h : c.current_condition = target
      · rw [show kwhSegments target (c :: rest) none =
            kwhSegments target rest (some (c, c)) by simp [kwhSegments, h]]
        rw [kwhSegments_open]
        rw [specRuns]
        rw [if_pos h]
        simp only [List.map_cons]
        have hhead :
            segmentKwh
                (c, (rest.takeWhile (fun r => decide (r.current_condition = target))).getLastD c) =
              runKwh (c :: rest.takeWhile (fun r => decide (r.current_condition = target))) := by
          simp [segmentKwh, runKwh, List.getLast?_cons]
        rw [hhead]
        have hlen :
            (rest.dropWhile (fun r => decide (r.current_condition = target))).length ≤ n := by
          have h1 :
              (rest.dropWhile (fun r => decide (r.current_condition = target))).length ≤
                rest.length :=
            (List.dropWhile_sublist _).length_le
          have h2 : rest.length ≤ n := by
            simpa [Nat.succ_le_succ_iff] using hl
          omega
        rw [ih _ hlen]
      · rw [show kwhSegments target (c :: rest) none =
            kwhSegments target rest none by simp [kwhSegments, h]]
        rw [specRuns]
        rw [if_neg h]
        have h2 : rest.length ≤ n := by
          simpa [Nat.succ_le_succ_iff] using hl
        exact ih _ h2

/-- Endpoint-energy sums of the source's segments equal run energies of
the claim's maximal runs. -/
theorem kwhSegments_eq_specRuns (target : Condition) (l : List ConditionRecord) :
    (kwhSegments target l none).map segmentKwh = (specRuns target l).map runKwh :=
  kwhSegments_eq_specRuns_aux target l.length l (Nat.le_refl _)

/-- Lists without any record of the target condition have no runs of it. -/
theorem specRuns_nil_of_filter (target : Condition) :
    ∀ (n : Nat) (l : List ConditionRecord), l.length ≤ n →
      l.filter (fun r => decide (r.current_condition = target)) = [] →
        specRuns target l = [] := by
  intro n
  induction n with
  | zero =>
    intro l hl _
    rw [List.length_eq_zero.mp (Nat.le_zero.mp hl)]
    exact specRuns_nil target
  | succ n ih =>
    intro l hl hf
    cases l with
    | nil => exact specRuns_nil target
    | cons c rest =>
      by_cases h : c.current_condition = target
      · rw [List.filter_cons_of_pos (by simp [h])] at hf
        exact absurd hf (List.cons_ne_nil _ _)
      · rw [List.filter_cons_of_neg (by simp [h])] at hf
        rw [specRuns]
        rw [if_neg h]
        have h2 : rest.length ≤ n := by
          simpa [Nat.succ_le_succ_iff] using hl
        exact ih rest h2 hf

/-- The guarded per-condition kWh expression of `calculateDailyStats`
matches the claim's run-sum. -/
theorem guardedKwh_eq_specSegmentSum (target : Condition) (conditions : List ConditionRecord) :
    (if (conditions.filter (fun c => decide (c.current_condition = target))).length > 0 then
        calculateKwhDelta (conditions.filter (fun c => decide (c.current_condition = target)))
          conditions
      else 0) = specSegmentSum target conditions := by
  cases hf : conditions.filter (fun c => decide (c.current_condition = target)) with
  | nil =>
    simp [specSegmentSum,
      specRuns_nil_of_filter target conditions.length conditions (Nat.le_refl _) hf]
  | cons r0 tl =>
    have hr0 : r0.current_condition = target := by
      have hmem : r0 ∈ conditions.filter (fun c => decide (c.current_condition = target)) := by
        rw [hf]; exact List.mem_cons_self r0 tl
      simpa using (List.mem_filter.mp hmem).2
    rw [if_pos (by simp)]
    simp only [calculateKwhDelta, hr0]
    rw [kwhSegments_eq_specRuns]
    rfl

/-- C3 amended: each per-condition kWh figure is the claimed sum over
maximal runs of `end.currentKwh - start.lastKwh` (missing `lastKwh` read
as 0); the persisted total kWh, however, is `current_kwh` of the day's
last record minus `last_kwh` of its first record (halved on a shared
meter), which includes MachineOFF consumption and is not in general the
sum of the three per-condition figures. -/
theorem C3_amended_kwh :
    (∀ conditions : List ConditionRecord,
        (calculateDailyStats conditions).heatingUpKwh =
            specSegmentSum Condition.HeatingUp conditions ∧
          (calculateDailyStats conditions).iddleKwh =
            specSegmentSum Condition.Iddle conditions ∧
          (calculateDailyStats conditions).productionKwh =
            specSegmentSum Condition.MachineProduction conditions) ∧
      ∀ (conditions : List ConditionRecord) (sharing : List Bool),
        (saveDailyMcRunHour conditions sharing).mc_run_kwh =
          (if (saveDailyMcRunHour conditions sharing).is_one_block = true then
              specTotalKwh conditions
            else specTotalKwh conditions / 2) := by
  constructor
  · intro conditions
    by_cases hc : conditions.isEmpty
    · rw [List.isEmpty_iff] at hc
      subst hc
      simp [calculateDailyStats, specSegmentSum, specRuns_nil]
    · unfold calculateDailyStats
      rw [if_neg (by simp [hc])]
      exact ⟨guardedKwh_eq_specSegmentSum _ _, guardedKwh_eq_specSegmentSum _ _,
        guardedKwh_eq_specSegmentSum _ _⟩
  · intro conditions sharing
    simp only [saveDailyMcRunHour, totalKwhOf_eq_specTotalKwh]

/-! ### C8: aggregation -/

/-- Merging a reading into an entry never changes the entry's key. -/
theorem aggUpdate_machineId (m : MachineReading) (r : SensorReading) :
    (aggUpdate m r).machineId = m.machineId := rfl

/-- One aggregation step, viewed through the entries of a fixed
machine id: a successful reading of that machine merges into (or
creates) that machine's entry, every other reading leaves the view
unchanged. -/
theorem aggStep_filter (acc : List MachineReading) (r : SensorReading) (mid : ℤ) :
    (aggStep acc r).filter (fun m => decide (m.machineId = mid)) =
      if r.success = true ∧ r.machineId = mid then
        aggSubStep (acc.filter (fun m => decide (m.machineId = mid))) r
      else acc.filter (fun m => decide (m.machineId = mid)) := by
  cases hsucc : r.success with
  | false => simp [aggStep, hsucc]
  | true =>
    have hcomp :
        ((fun m => decide (m.machineId = mid)) ∘
            fun m => if m.machineId = r.machineId then aggUpdate m r else m) =
          fun m : MachineReading => decide (m.machineId = mid) := by
      funext m
      by_cases h : m.machineId = r.machineId <;> simp [h, aggUpdate]
    by_cases hmid : r.machineId = mid
    · rw [if_pos ⟨rfl, hmid⟩]
      by_cases hex : acc.any (fun m => decide (m.machineId = r.machineId)) = true
      · have hstep : aggStep acc r =
            acc.map (fun m => if m.machineId = r.machineId then aggUpdate m r else m) := by
          simp [aggStep, hsucc, hex]
        rw [hstep, List.filter_map, hcomp]
        have hne : acc.filter (fun m => decide (m.machineId = mid)) ≠ [] := by
          rw [List.any_eq_true] at hex
          obtain ⟨m, hm, hm2⟩ := hex
          simp only [decide_eq_true_eq] at hm2
          intro hnil
          have hmem : m ∈ acc.filter (fun m => decide (m.machineId = mid)) :=
            List.mem_filter.mpr ⟨hm, by simp [hm2, hmid]⟩
          rw [hnil] at hmem
          exact absurd hmem (List.not_mem_nil m)
        cases hft : acc.filter (fun m => decide (m.machineId = mid)) with
        | nil => exact absurd hft hne
        | cons a l =>
          show List.map _ (a :: l) = aggSubStep (a :: l) r
          have hall : ∀ m ∈ a :: l, m.machineId = r.machineId := by
            intro m hm
            rw [← hft] at hm
            have := (List.mem_filter.mp hm).2
            simp only [decide_eq_true_eq] at this
            rw [this, hmid]
          calc List.map (fun m => if m.machineId = r.machineId then aggUpdate m r else m)
                (a :: l)
              = List.map (fun m => aggUpdate m r) (a :: l) :=
                List.map_congr_left (fun m hm => if_pos (hall m hm))
            _ = aggSubStep (a :: l) r := rfl
      · have hstep : aggStep acc r = acc ++ [aggUpdate (aggBase r) r] := by
          simp only [aggStep, hsucc]
          rw [if_neg (by simp), if_neg hex]
        have hnil : acc.filter (fun m => decide (m.machineId = mid)) = [] := by
          rw [List.filter_eq_nil_iff]
          intro m hm
          simp only [decide_eq_true_eq]
          intro hcontra
          rw [Bool.not_eq_true, List.any_eq_false] at hex
          exact absurd (by simp [hcontra, hmid] : decide (m.machineId = r.machineId) = true)
            (hex m hm)
        rw [hstep, List.filter_append, hnil]
        show [aggUpdate (aggBase r) r].filter (fun m => decide (m.machineId = mid)) =
          aggSubStep [] r
        rw [List.filter_cons_of_pos (by simp [aggUpdate, aggBase, hmid])]
        rfl
    · rw [if_neg (fun h => hmid h.2)]
      by_cases hex : acc.any (fun m => decide (m.machineId = r.machineId)) = true
      · have hstep : aggStep acc r =
            acc.map (fun m => if m.machineId = r.machineId then aggUpdate m r else m) := by
          simp [aggStep, hsucc, hex]
        rw [hstep, List.filter_map, hcomp]
        have : ∀ m ∈ acc.filter (fun m => decide (m.machineId = mid)),
            (if m.machineId = r.machineId then aggUpdate m r else m) = m := by
          intro m hm
          have h2 := (List.mem_filter.mp hm).2
          simp only [decide_eq_true_eq] at h2
          rw [if_neg (by rw [h2]; exact fun hcontra => hmid hcontra.symm)]
        rw [List.map_congr_left this, List.map_id']
      · have hstep : aggStep acc r = acc ++ [aggUpdate (aggBase r) r] := by
          simp only [aggStep, hsucc]
          rw [if_neg (by simp), if_neg hex]
        rw [hstep, List.filter_append]
        rw [List.filter_cons_of_neg (by simp [aggUpdate, aggBase, hmid])]
        simp

/-- The whole aggregation fold, viewed through one machine id, equals a
fold of the per-machine step over that machine's successful readings. -/
theorem aggFold_filter (rs : List SensorReading) :
    ∀ (acc : List MachineReading) (mid : ℤ),
      (rs.foldl aggStep acc).filter (fun m => decide (m.machineId = mid)) =
        (rs.filter (fun r => r.success && decide (r.machineId = mid))).foldl aggSubStep
          (acc.filter (fun m => decide (m.machineId = mid))) := by
  induction rs with
  | nil => intro acc mid; rfl
  | cons r rs ih =>
    intro acc mid
    rw [List.foldl_cons, ih]
    by_cases hcond : r.success = true ∧ r.machineId = mid
    · rw [List.filter_cons_of_pos (by simp [hcond.1, hcond.2])]
      rw [List.foldl_cons, aggStep_filter, if_pos hcond]
    · rw [List.filter_cons_of_neg
        (by simp only [Bool.and_eq_true, decide_eq_true_eq]; exact hcond)]
      rw [aggStep_filter, if_neg hcond]

/-- Folding the per-machine step from a singleton entry just merges
every reading into that entry. -/
theorem aggSubFold_singleton (rs : List SensorReading) :
    ∀ x : MachineReading, rs.foldl aggSubStep [x] = [rs.foldl aggUpdate x] := by
  induction rs with
  | nil => intro x; rfl
  | cons r rs ih =>
    intro x
    rw [List.foldl_cons, List.foldl_cons]
    exact ih (aggUpdate x r)

/-- C8: for every machine id, the aggregation yields exactly one
`MachineReading` when the machine has a successful sensor reading and
none otherwise; its identity fields and timestamp come from the first
successful reading and its values are the last-writer-wins merge of all
its successful readings in input order.  Unsuccessful readings
contribute nothing. -/
theorem C8_aggregate_readings (readings : List SensorReading) (mid : ℤ) :
    (aggregateReadings readings).filter (fun m => decide (m.machineId = mid)) =
      aggSpecEntry (readings.filter (fun r => r.success && decide (r.machineId = mid))) := by
  unfold aggregateReadings
  rw [aggFold_filter]
  cases hs : readings.filter (fun r => r.success && decide (r.machineId = mid)) with
  | nil => rfl
  | cons r rs =>
    rw [List.foldl_cons]
    show rs.foldl aggSubStep [aggUpdate (aggBase r) r] = _
    rw [aggSubFold_singleton]
    simp [aggSpecEntry]

end Oee
